import Mathlib

/-!
Verification of the wells_fug position-tracking core against its
natural-language specification.

The development shallowly embeds the relevant scripts:

* `Snap`    — `scripts/fetch/update_bw_snapshots.py` (merge of AIS position
  reports into the per-rig snapshot store, 12h bucket, midnight rollover).
* `Persist` — the file-write routines of `update_bw_snapshots.py`,
  `merge_bw_kdh.py`, `fetch_kdhdata.py` and `analyze/rig_well_analysis.py`,
  modelled as traces of file-system operations.
* `LKP`     — `scripts/update_lastknownpos.py` (last-known-position merge).
* `Geo`     — the haversine great-circle distance shared by
  `fetch_kdhdata.py` and `rig_well_analysis.py`, over the reals.
* `Kdh`     — the approach-ratio computation of `fetch_kdhdata.py`.
* `RW`      — the movement/status classification of
  `analyze/rig_well_analysis.py`.

Machine floats are embedded as real numbers; JSON timestamps are embedded as
integer epoch seconds together with an abstract parse function standing for
`datetime.fromisoformat`.
-/

namespace Snap

/-- One AIS message, as consumed by `update_bw_snapshots.main`: only the
`mmsi` key (possibly absent) and the raw `msgtime` string matter to the
merge logic. -/
structure Msg where
  mmsi : Option Int
  msgtime : String
deriving DecidableEq, Repr

/-- One element of a `running_msgs` list: the Python dict
`{"msg": msg, "msgtime_dt": msg_dt}` built on line 101 of
`update_bw_snapshots.py`. -/
structure RunEntry where
  msg : Msg
  msgtime_dt : Int
deriving DecidableEq, Repr

/-- Values stored in a running-list entry dict. -/
inductive DVal where
  | str (s : String)
  | vmsg (m : Msg)
  | int (t : Int)
deriving DecidableEq, Repr

/-- Dictionary lookup `r.get(k)` on a running-list entry.  The entry dicts
are built with exactly the keys `"msg"` and `"msgtime_dt"`, so any other
key — in particular the key `"msgtime"` used by the duplicate check on
line 100 — yields `None`. -/
def entryGet (r : RunEntry) (k : String) : Option DVal :=
  if k = "msg" then some (DVal.vmsg r.msg)
  else if k = "msgtime_dt" then some (DVal.int r.msgtime_dt)
  else none

/-- Per-rig snapshot dict created on lines 77-84 of
`update_bw_snapshots.py`. -/
structure RigSnap where
  msg_recent : Option Msg := none
  running_msgs : List RunEntry := []
  msg_12h : Option Msg := none
  msg_1d : Option Msg := none
  msg_2d : Option Msg := none
deriving DecidableEq, Repr

/-- The snapshot store: a dict keyed by mmsi. -/
def Store := Int → Option RigSnap

/-- Dictionary update `snapshots[mmsi] = snap`. -/
def Store.update (s : Store) (k : Int) (v : RigSnap) : Store :=
  fun j => if j = k then some v else s j

/-- Twelve hours, in seconds (`timedelta(hours=12)`). -/
def twelveHours : Int := 43200

/-- Ascending order on history entries, by parsed observation time. -/
def dtLE (a b : RunEntry) : Prop := a.msgtime_dt ≤ b.msgtime_dt

instance : DecidableRel dtLE := fun a b => Int.decLe a.msgtime_dt b.msgtime_dt

instance : IsTotal RunEntry dtLE := ⟨fun a b => Int.le_total a.msgtime_dt b.msgtime_dt⟩

instance : IsTrans RunEntry dtLE := ⟨fun _ _ _ hab hbc => le_trans hab hbc⟩

/-- Python `list.sort(key=msgtime_dt)` on line 104: a stable sort ascending
by the parsed timestamp.  Insertion sort is stable, hence produces the same
list as CPython timsort. -/
def sortRun (l : List RunEntry) : List RunEntry :=
  l.insertionSort dtLE

/-- Lines 106-107: `if len(running_msgs) > 12: running_msgs[:] =
running_msgs[-12:]`. -/
def keepLast12 (l : List RunEntry) : List RunEntry :=
  if 12 < l.length then l.drop (l.length - 12) else l

/-- Lines 99-107: the duplicate check, append, sort and truncation applied
to a rig snapshot history when message `m` (parsed time `dt`) arrives.
The duplicate check compares `r.get("msgtime")` — a key the entry dicts do
not have — against the message time string. -/
def updatedRunning (old : List RunEntry) (m : Msg) (dt : Int) : List RunEntry :=
  let appended :=
    if old.all (fun r => entryGet r "msgtime" ≠ some (DVal.str m.msgtime)) then
      old ++ [⟨m, dt⟩]
    else old
  keepLast12 (sortRun appended)

/-- Lines 112-116: scan the sorted history and set `msg_12h` to the first
entry at least 12 hours old, keeping the previous bucket value when no
entry qualifies. -/
def bucket12 (now : Int) (running : List RunEntry) (old12 : Option Msg) : Option Msg :=
  match running.find? (fun r => twelveHours ≤ now - r.msgtime_dt) with
  | some r => some r.msg
  | none => old12

/-- Line 121: evict history entries aged 12 hours or more. -/
def pruneRunning (now : Int) (running : List RunEntry) : List RunEntry :=
  running.filter (fun r => now - r.msgtime_dt < twelveHours)

/-- Lines 66-121 of `update_bw_snapshots.main`: processing of a single
message.  `parse` stands for `datetime.fromisoformat` on the `msgtime`
string; a message whose time does not parse, or which lacks an mmsi, is
skipped. -/
def processMsg (now : Int) (parse : String → Option Int) (s : Store) (m : Msg) : Store :=
  match parse m.msgtime with
  | none => s
  | some dt =>
    match m.mmsi with
    | none => s
    | some mmsi =>
      let snap := (s mmsi).getD {}
      let running := updatedRunning snap.running_msgs m dt
      Store.update s mmsi
        { snap with
          msg_recent := some m
          msg_12h := bucket12 now running snap.msg_12h
          running_msgs := pruneRunning now running }

/-- UTC hour of an epoch-seconds clock (`now.hour`). -/
def hourOf (now : Int) : Int := (now / 3600) % 24

/-- UTC minute of an epoch-seconds clock (`now.minute`). -/
def minuteOf (now : Int) : Int := (now % 3600) / 60

/-- Lines 127-129: shift `msg_2d ← msg_1d` and `msg_1d ← msg_12h` for every
snapshot in the store. -/
def shiftAll (s : Store) : Store :=
  fun k => (s k).map (fun sn => { sn with msg_2d := sn.msg_1d, msg_1d := sn.msg_12h })

/-- Lines 124-129: the rollover is applied whenever `now.hour == 0 and
now.minute < 60`. -/
def rolloverStep (now : Int) (s : Store) : Store :=
  if hourOf now = 0 ∧ minuteOf now < 60 then shiftAll s else s

/-- The in-memory effect of one run of `update_bw_snapshots.main` on the
snapshot store: merge every message of the batch, then the midnight-hour
rollover. -/
def mainUpdate (now : Int) (parse : String → Option Int) (msgs : List Msg) (s : Store) : Store :=
  rolloverStep now (msgs.foldl (processMsg now parse) s)

/-- The empty store (no snapshot file yet). -/
def emptyStore : Store := fun _ => none

end Snap

namespace Py

/-- Python truthiness of an optional string field: `None` and the empty
string are falsy. -/
def truthyStr : Option String → Bool
  | none => false
  | some s => s ≠ ""

/-- Python `not` applied to an `is_moving` value that is `None`, `False` or
`True`: both `None` and `False` are falsy. -/
def notTruthy : Option Bool → Bool
  | some true => false
  | _ => true

end Py

namespace Persist

/-- File-system side effects performed by the write routines. -/
inductive FsOp where
  | mkdirParents (dir : String)
  | writeFile (path : String) (doc : String)
  | renameReplace (src : String) (dst : String)
deriving DecidableEq, Repr

/-- Parent directory of a path (`path.parent`). -/
def dirOf (p : String) : String :=
  String.intercalate "/" ((p.splitOn "/").dropLast)

/-- Helper for `withSuffixTmp`: on the reversed character list, cut away
the final extension (everything from the last dot of the last path
component). -/
def cutExtRev : List Char → Option (List Char)
  | [] => none
  | c :: cs => if c = '.' then some cs else if c = '/' then none else cutExtRev cs

/-- Model of `path.with_suffix(".tmp")`: replace the final extension of
the last path component by `.tmp`.  All call sites in the repository use
`.json` targets, for which this string-level version agrees with
`pathlib`. -/
def withSuffixTmp (p : String) : String :=
  match cutExtRev p.toList.reverse with
  | some rest => String.mk rest.reverse ++ ".tmp"
  | none => p ++ ".tmp"

/-- Lines 50-54 of `update_bw_snapshots.py` (`save_snapshots`): mkdir, then
a single direct `open("w")`/`json.dump` of the full document onto the
final path.  The same shape is used for the `ais_msg_main.json` write on
lines 151-153, for the output write of `rig_well_analysis.py` (lines
207-218) and for `write_json` of `update_lastknownpos.py`. -/
def save_snapshots_ops (doc : String) (path : String) : List FsOp :=
  [FsOp.mkdirParents (dirOf path), FsOp.writeFile path doc]

/-- Lines 21-27 of `merge_bw_kdh.py` (`save_json_atomic`; identical in
`fetch_kdhdata.py` lines 62-68): mkdir, write the document to the `.tmp`
sibling, then `tmp.replace(path)`. -/
def save_json_atomic_ops (doc : String) (path : String) : List FsOp :=
  [FsOp.mkdirParents (dirOf path),
   FsOp.writeFile (withSuffixTmp path) doc,
   FsOp.renameReplace (withSuffixTmp path) path]

/-- A trace contains a direct write of the final path. -/
def writesFinalDirectly (ops : List FsOp) (target : String) : Bool :=
  ops.any (fun op => match op with
    | FsOp.writeFile p _ => p = target
    | _ => false)

/-- A trace installs the final document by a rename onto the target. -/
def installsByRename (ops : List FsOp) (target : String) : Bool :=
  ops.any (fun op => match op with
    | FsOp.renameReplace _ dst => dst = target
    | _ => false)

/-- The write pattern the specification requires: the full document goes
to a temporary path and reaches the final path only through an atomic
rename, never through a direct write. -/
def atomicPattern (ops : List FsOp) (target : String) : Bool :=
  !writesFinalDirectly ops target && installsByRename ops target

/-- Target path of the snapshot store document. -/
def SNAPSHOT_PATH : String := "docs/data/bw_snapshots.json"

/-- Target path of the analysis output document. -/
def ANALYSIS_PATH : String := "docs/data/rig_well_analysis.json"

/-- Target path of the merged AIS document of `merge_bw_kdh.py`. -/
def MERGED_PATH : String := "docs/data/ais_msg_main2.json"

end Persist

namespace LKP

/-- One record of `lastknowndata.json`, as built by
`update_lastknownpos.py`.  JSON numbers are embedded as rationals: this
script only copies coordinate values, it never computes with them. -/
structure LKRec where
  rig_name : String
  mmsi : Option Int := none
  latitude : Option ℚ := none
  longitude : Option ℚ := none
  msgtime : Option String := none
  source : Option String := none
  fetched_at : Option String := none
deriving DecidableEq, Repr

/-- One entry of the BW feed document `bw_ais.json`. -/
structure BwEntry where
  rig_name : Option String := none
  mmsi : Option Int := none
  latitude : Option ℚ := none
  longitude : Option ℚ := none
  msgtime : Option String := none
  source : Option String := none
deriving DecidableEq, Repr

/-- One entry of the KDH feed document `kdhdata.json` (keys `lat`, `lon`,
`timestamp`). -/
structure KdhEntry where
  rig_name : Option String := none
  mmsi : Option Int := none
  lat : Option ℚ := none
  lon : Option ℚ := none
  timestamp : Option String := none
  source : Option String := none
deriving DecidableEq, Repr

/-- The in-memory `last_known` dict, keyed by rig name. -/
def LKMap := String → Option LKRec

/-- Dictionary update `last_known[rig_name] = entry`. -/
def LKMap.update (m : LKMap) (k : String) (v : LKRec) : LKMap :=
  fun j => if j = k then some v else m j

/-- Line 58: a BW entry is used when its rig name is truthy and both
coordinates are non-null. -/
def bwAccepts (e : BwEntry) : Bool :=
  Py.truthyStr e.rig_name && e.latitude.isSome && e.longitude.isSome

/-- Lines 59-67: the record built from a BW entry (`source` defaults to
`"barentswatch"`, `fetched_at` is the current time). -/
def bwRec (now : String) (e : BwEntry) : LKRec :=
  { rig_name := e.rig_name.getD ""
    mmsi := e.mmsi
    latitude := e.latitude
    longitude := e.longitude
    msgtime := e.msgtime
    source := some (e.source.getD "barentswatch")
    fetched_at := some now }

/-- Line 75: a KDH entry is used when its rig name is truthy and both
coordinates are non-null. -/
def kdhAccepts (e : KdhEntry) : Bool :=
  Py.truthyStr e.rig_name && e.lat.isSome && e.lon.isSome

/-- Lines 76-84: the record built from a KDH entry (`source` defaults to
`"kystdatahuset"`). -/
def kdhRec (now : String) (e : KdhEntry) : LKRec :=
  { rig_name := e.rig_name.getD ""
    mmsi := e.mmsi
    latitude := e.lat
    longitude := e.lon
    msgtime := e.timestamp
    source := some (e.source.getD "kystdatahuset")
    fetched_at := some now }

/-- Lines 47-50: seed `last_known` from the previously stored document
(`entry["rig_name"]` is accessed directly, so stored records carry a rig
name). -/
def stepStored (m : LKMap) (e : LKRec) : LKMap :=
  m.update e.rig_name e

/-- Lines 56-67: overwrite with each usable BW entry. -/
def stepBw (now : String) (m : LKMap) (e : BwEntry) : LKMap :=
  if bwAccepts e then m.update (e.rig_name.getD "") (bwRec now e) else m

/-- Lines 73-84: overwrite with each usable KDH entry. -/
def stepKdh (now : String) (m : LKMap) (e : KdhEntry) : LKMap :=
  if kdhAccepts e then m.update (e.rig_name.getD "") (kdhRec now e) else m

/-- Lines 89-99: fill in a null-position record for registry rigs that are
still missing. -/
def stepReg (now : String) (m : LKMap) (rig : String × Int) : LKMap :=
  if m rig.1 = none then
    m.update rig.1
      { rig_name := rig.1, mmsi := some rig.2, fetched_at := some now }
  else m

/-- The module-level merge of `update_lastknownpos.py`: stored records,
then the BW feed, then the KDH feed, then the registry fill. -/
def mergeLastKnown (now : String) (stored : List LKRec) (bw : List BwEntry)
    (kdh : List KdhEntry) (registry : List (String × Int)) : LKMap :=
  let m0 := stored.foldl stepStored (fun _ => none)
  let m1 := bw.foldl (stepBw now) m0
  let m2 := kdh.foldl (stepKdh now) m1
  registry.foldl (stepReg now) m2

/-- The last BW entry of the feed that is usable for rig `r` — dict
overwriting makes the last one win. -/
def lastBwFor (bw : List BwEntry) (r : String) : Option BwEntry :=
  bw.reverse.find? (fun e => bwAccepts e && e.rig_name.getD "" = r)

/-- The last KDH entry of the feed that is usable for rig `r`. -/
def lastKdhFor (kdh : List KdhEntry) (r : String) : Option KdhEntry :=
  kdh.reverse.find? (fun e => kdhAccepts e && e.rig_name.getD "" = r)

/-- The last stored record for rig `r` (the previously persisted
position). -/
def lastStoredFor (stored : List LKRec) (r : String) : Option LKRec :=
  stored.reverse.find? (fun e => e.rig_name = r)

end LKP


open scoped Classical

noncomputable section

namespace Geo

/-- Conversion `math.radians`. -/
def rad (x : ℝ) : ℝ := x * Real.pi / 180

/-- Two-argument arctangent, the `math.atan2` convention.  Only the
first-quadrant branches are exercised by the haversine formula, whose two
arguments are square roots; `atan2(0.0, 0.0)` is `0.0` in CPython, matched
by the final branch. -/
def atan2 (y x : ℝ) : ℝ :=
  if 0 < x then Real.arctan (y / x)
  else if x < 0 ∧ 0 ≤ y then Real.arctan (y / x) + Real.pi
  else if x < 0 ∧ y < 0 then Real.arctan (y / x) - Real.pi
  else if x = 0 ∧ 0 < y then Real.pi / 2
  else if x = 0 ∧ y < 0 then -(Real.pi / 2)
  else 0

/-- Euclidean inner product on coordinate triples, used to relate the
haversine formula to the central angle between points on the unit
sphere. -/
def dot3 (u v : ℝ × ℝ × ℝ) : ℝ :=
  u.1 * v.1 + u.2.1 * v.2.1 + u.2.2 * v.2.2

/-- Unit vector of a latitude/longitude pair given in radians. -/
def unitV (phi lam : ℝ) : ℝ × ℝ × ℝ :=
  (Real.cos phi * Real.cos lam, Real.cos phi * Real.sin lam, Real.sin phi)

/-- The intermediate value `a` of the haversine formula. -/
def havA (lat1 lon1 lat2 lon2 : ℝ) : ℝ :=
  Real.sin (rad (lat2 - lat1) / 2) ^ 2 +
    Real.cos (rad lat1) * Real.cos (rad lat2) * Real.sin (rad (lon2 - lon1) / 2) ^ 2

end Geo

namespace Kdh

/-- Lines 35-45 of `fetch_kdhdata.py`: great-circle distance in kilometres
on a sphere of radius 6371 km. -/
def haversine_km (lat1 lon1 lat2 lon2 : ℝ) : ℝ :=
  6371.0 * 2 *
    Geo.atan2 (Real.sqrt (Geo.havA lat1 lon1 lat2 lon2))
      (Real.sqrt (1 - Geo.havA lat1 lon1 lat2 lon2))

/-- A reference-position dict (`msg_12h` of the merged AIS document):
`latitude`/`longitude` may be null or missing.  A float `NaN` has no
counterpart in the reals, so `valid_coords` reduces to both fields being
present. -/
structure Pos where
  latitude : Option ℝ := none
  longitude : Option ℝ := none

/-- Python `round(x, 3)` before storing the approach ratio.  CPython
rounds decimal ties to even; the two conventions agree except on exact
ties, which play no role in the stated bounds. -/
def pyRound3 (x : ℝ) : ℝ := (round (x * 1000) : ℤ) / 1000

/-- Lines 132-146: the displacement `movement_km` is computed exactly when
the reference position is truthy and carries valid coordinates. -/
def movement_km (rp : Option Pos) (lat lon : ℝ) : Option ℝ :=
  match rp with
  | none => none
  | some r =>
    match r.latitude, r.longitude with
    | some rlat, some rlon => some (haversine_km rlat rlon lat lon)
    | _, _ => none

/-- Lines 163-183: the per-well `approach_ratio` as stored in the
`assigned_wells` output.  The guard `reference_pos and movement_km and
movement_km > 0` collapses to `movement_km > 0` once the reference is
valid, since `movement_km` is `None` exactly when the reference is absent
or invalid and `0.0` is falsy. -/
def approach_ratio (rp : Option Pos) (lat lon wlat wlon : ℝ) : Option ℝ :=
  match rp with
  | none => none
  | some r =>
    match r.latitude, r.longitude with
    | some rlat, some rlon =>
      let mk := haversine_km rlat rlon lat lon
      if 0 < mk then
        some (pyRound3 (max 0
          ((haversine_km rlat rlon wlat wlon - haversine_km lat lon wlat wlon) / mk)))
      else none
    | _, _ => none

end Kdh

namespace RW

/-- Lines 36-47 of `analyze/rig_well_analysis.py`: the same haversine
distance (the two source files write the prefactor as `2 * R` and
`R * 2`). -/
def haversine_km (lat1 lon1 lat2 lon2 : ℝ) : ℝ :=
  2 * 6371.0 *
    Geo.atan2 (Real.sqrt (Geo.havA lat1 lon1 lat2 lon2))
      (Real.sqrt (1 - Geo.havA lat1 lon1 lat2 lon2))

/-- Line 19. -/
def STATIONARY_THRESHOLD_M : ℝ := 50

/-- Line 20: the on-site distance threshold of the status classifier is
200 metres. -/
def ON_SITE_DISTANCE_M : ℝ := 200

/-- An AIS message as read back from the snapshot store JSON. -/
structure AMsg where
  rig_name : Option String := none
  latitude : Option ℝ := none
  longitude : Option ℝ := none
  msgtime : Option String := none
  source : Option String := none

/-- One well record of `sodirdata.json`. -/
structure Well where
  rig_name : Option String := none
  wellbore_name : String
  lat : Option ℝ := none
  lon : Option ℝ := none
  entryDate : Option String := none

/-- The part of a stored rig snapshot the analysis reads: `msg_recent` and
the `running_msgs` list, whose persisted entries are dicts
`{"msg": ...}`. -/
structure ASnap where
  msg_recent : Option AMsg := none
  running_msgs : List AMsg := []

/-- Line 51: `valid_coords` accepts ints and floats; JSON null and
non-numbers are invalid. -/
def valid_coords (lat lon : Option ℝ) : Bool :=
  lat.isSome && lon.isSome

/-- Python `round(x, 1)`. -/
def pyRound1 (x : ℝ) : ℝ := (round (x * 10) : ℤ) / 10

/-- Lines 103-117: movement is computed from the second-to-last running
message; with fewer than two entries or invalid coordinates both outputs
stay `None`. -/
def movementOf (running : List AMsg) (lat lon : ℝ) : Option ℝ × Option Bool :=
  if 2 ≤ running.length then
    match running.get? (running.length - 2) with
    | some prev =>
      match prev.latitude, prev.longitude with
      | some plat, some plon =>
        let movement_m := haversine_km plat plon lat lon * 1000
        (some movement_m, some (if STATIONARY_THRESHOLD_M < movement_m then true else false))
      | _, _ => (none, none)
    | none => (none, none)
  else (none, none)

/-- Accumulator of the wells loop (lines 134-161). -/
structure LoopSt where
  closest_well : Option Well := none
  closest_distance_m : Option ℝ := none
  on_site_well : Option Well := none

/-- Lines 138-161: one iteration of the wells loop.  Wells with invalid
coordinates are skipped; the closest well is updated on a strict decrease
(first occurrence wins ties); the on-site well is overwritten by every
well that is within 200 m and activated while the rig is not moving. -/
def wellStep (lat lon : ℝ) (is_moving : Option Bool) (st : LoopSt) (w : Well) : LoopSt :=
  match w.lat, w.lon with
  | some wlat, some wlon =>
    let dist_m := haversine_km lat lon wlat wlon * 1000
    let st1 :=
      match st.closest_distance_m with
      | none => { st with closest_distance_m := some dist_m, closest_well := some w }
      | some c =>
        if dist_m < c then
          { st with closest_distance_m := some dist_m, closest_well := some w }
        else st
    if Py.notTruthy is_moving = true ∧ dist_m ≤ ON_SITE_DISTANCE_M ∧
        Py.truthyStr w.entryDate = true then
      { st1 with on_site_well := some w }
    else st1
  | _, _ => st

/-- Specification-level predicate: well `w` triggers the on-site branch of
the loop (lines 156-161) — the rig is not reported moving, the well has
valid coordinates within the 200 m threshold, and it is activated (truthy
`entryDate`). -/
def qualifies (lat lon : ℝ) (im : Option Bool) (w : Well) : Prop :=
  Py.notTruthy im = true ∧ ∃ wlat wlon, w.lat = some wlat ∧ w.lon = some wlon ∧
    haversine_km lat lon wlat wlon * 1000 ≤ ON_SITE_DISTANCE_M ∧
    Py.truthyStr w.entryDate = true

/-- The per-rig analysis output (the fields of `rig_results`). -/
structure RigResult where
  is_moving : Option Bool
  movement_m : Option ℝ
  status : String
  confidence : String
  closest_well : Option String
  closest_distance_m : Option ℝ
  on_site_well : Option String
  future_wells : List String

/-- Lines 87-201: analysis of a single rig snapshot against its assigned
wells.  Returns `none` when the rig is skipped (no recent message, falsy
rig name, or invalid coordinates — `valid_coords` holds exactly when both
optional coordinates are present, which the match expresses). -/
def analyzeRig (snap : ASnap) (assigned_wells : List Well) : Option RigResult :=
  match snap.msg_recent with
  | none => none
  | some msg =>
    match msg.latitude, msg.longitude with
    | some lat, some lon =>
      if Py.truthyStr msg.rig_name = true then
        let mv := movementOf snap.running_msgs lat lon
        let movement_m := mv.1
        let is_moving := mv.2
        let st := assigned_wells.foldl (wellStep lat lon is_moving) {}
        let sc :=
          if st.on_site_well.isSome then ("on_site", "high")
          else if Py.notTruthy is_moving then ("stationary", "medium")
          else ("moving", "medium")
        some
          { is_moving := is_moving
            movement_m := movement_m.map pyRound1
            status := sc.1
            confidence := sc.2
            closest_well := st.closest_well.map (fun w => w.wellbore_name)
            closest_distance_m := st.closest_distance_m.map pyRound1
            on_site_well := st.on_site_well.map (fun w => w.wellbore_name)
            future_wells :=
              (assigned_wells.filter
                (fun w => !Py.truthyStr w.entryDate)).map (fun w => w.wellbore_name) }
      else none
    | _, _ => none

end RW

end

namespace Snap

/-- View of a store at one key: the `msg_recent` field (outer `none` means
the key is absent). -/
def getRecent (s : Store) (k : Int) : Option (Option Msg) :=
  (s k).map (fun sn => sn.msg_recent)

/-- The last message of a batch that is actually processed for asset `k`:
its mmsi is `k` and its time string parses. -/
def lastValidFor (parse : String → Option Int) (k : Int) (msgs : List Msg) : Option Msg :=
  msgs.reverse.find? (fun m => m.mmsi = some k && (parse m.msgtime).isSome)

/-- The history invariant of the specification, relative to clock `now`:
the snapshot exists, its history has at most 12 entries, is sorted
ascending by observation time, and has no entry aged 12 hours or more. -/
def historyOk (now : Int) (x : Option RigSnap) : Prop :=
  ∃ sn, x = some sn ∧ sn.running_msgs.length ≤ 12 ∧
    List.Sorted dtLE sn.running_msgs ∧
    ∀ r ∈ sn.running_msgs, now - r.msgtime_dt < twelveHours

end Snap

/-! ## Claim C3 — idempotent merge (history deduplication) -/

/-- C3: the merge is claimed to be idempotent — a report whose timestamp
already occurs in the history must not be appended again.  Evaluating the
merge on a batch holding the same report twice (mmsi 1, time string
`"T0"`, parsed to 7200, at clock 7200) shows the report is appended twice:
the duplicate check of line 100 reads `r.get("msgtime")`, a key the
running-list entries do not have, so it never fires. -/
theorem c3_duplicate_append_eval :
    ((Snap.mainUpdate 7200 (fun s => if s = "T0" then some 7200 else none)
        [⟨some 1, "T0"⟩, ⟨some 1, "T0"⟩] Snap.emptyStore) 1).map
        (fun sn => sn.running_msgs) =
      some [⟨⟨some 1, "T0"⟩, 7200⟩, ⟨⟨some 1, "T0"⟩, 7200⟩] := by
  decide

/-! ## Claim C1 — the 12h bucket after a merge -/

/-- C1 counterexample: the claim says the 12h bucket is absent whenever no
history entry is at least 12 hours old.  Merging a single 13.9-hour-old
report (parsed time 0, clock 100000) into an empty store leaves the
history empty — the report is first promoted into `msg_12h` and then
evicted — so no history entry is that old, yet the bucket holds the
report instead of being absent. -/
theorem c1_counterexample :
    ((Snap.mainUpdate 100000 (fun s => if s = "Told" then some 0 else none)
        [⟨some 1, "Told"⟩] Snap.emptyStore) 1).map
        (fun sn => (sn.running_msgs, sn.msg_12h)) =
      some ([], some ⟨some 1, "Told"⟩) ∧
    some (⟨some 1, "Told"⟩ : Snap.Msg) ≠ none := by
  exact ⟨by decide, by decide⟩

/-! ## Claim C4 — history bounds after a merge -/

/-- C4 counterexample: the claim quantifies over every asset snapshot, but
the merge only prunes the snapshots of assets that receive a message in
the batch.  With a store holding a 100000-second-old entry for mmsi 5 and
a batch carrying one valid report for mmsi 7, the merged store still
contains, for mmsi 5, a history entry far older than 12 hours relative to
the merge time. -/
theorem c4_counterexample :
    ((Snap.mainUpdate 100000 (fun s => if s = "Tb" then some 99000 else none)
        [⟨some 7, "Tb"⟩]
        (fun k => if k = 5 then
          some { msg_recent := none
                 running_msgs := [⟨⟨some 5, "Ta"⟩, 0⟩]
                 msg_12h := none, msg_1d := none, msg_2d := none }
          else none)) 5).map
        (fun sn => sn.running_msgs.any (fun r => 43200 ≤ 100000 - r.msgtime_dt)) =
      some true := by
  decide

/-! ## Claim C5 — daily rollover idempotence -/

/-- C5 counterexample: the rollover runs whenever the clock is inside UTC
hour 0, with no last-rolled-date state.  Two runs at 00:00:00 and 00:10:00
of the same UTC date (clocks 0 and 600, both on day 0) shift the buckets
twice: after the first run `msg_2d` holds the old `msg_1d` (message `"B"`),
after the second run it has been shifted again to message `"A"`. -/
theorem c5_counterexample :
    (((Snap.mainUpdate 0 (fun _ => none) []
        (fun k => if k = 1 then
          some { msg_recent := none, running_msgs := []
                 msg_12h := some ⟨some 1, "A"⟩
                 msg_1d := some ⟨some 1, "B"⟩
                 msg_2d := some ⟨some 1, "C"⟩ }
          else none)) 1).map (fun sn => sn.msg_2d) =
      some (some ⟨some 1, "B"⟩)) ∧
    ((Snap.mainUpdate 600 (fun _ => none) []
        (Snap.mainUpdate 0 (fun _ => none) []
          (fun k => if k = 1 then
            some { msg_recent := none, running_msgs := []
                   msg_12h := some ⟨some 1, "A"⟩
                   msg_1d := some ⟨some 1, "B"⟩
                   msg_2d := some ⟨some 1, "C"⟩ }
            else none)) 1).map (fun sn => sn.msg_2d) =
      some (some ⟨some 1, "A"⟩)) ∧
    (some (some (⟨some 1, "B"⟩ : Snap.Msg)) ≠ some (some (⟨some 1, "A"⟩ : Snap.Msg))) ∧
    (0 : Int) / 86400 = 600 / 86400 := by
  exact ⟨by decide, by decide, by decide, by decide⟩

/-! ## Claim C8 — `current` and out-of-order reports -/

/-- C8 counterexample: the claim says an older report never replaces a
newer stored `current`.  With `msg_recent` holding a report of parsed time
10000 and a batch carrying a single report of parsed time 100 (clock
20000), the merge replaces `msg_recent` with the older report: line 91
assigns unconditionally. -/
theorem c8_counterexample :
    ((Snap.mainUpdate 20000
        (fun s => if s = "TO" then some 100 else if s = "TN" then some 10000 else none)
        [⟨some 1, "TO"⟩]
        (fun k => if k = 1 then
          some { msg_recent := some ⟨some 1, "TN"⟩, running_msgs := []
                 msg_12h := none, msg_1d := none, msg_2d := none }
          else none)) 1).map (fun sn => sn.msg_recent) =
      some (some ⟨some 1, "TO"⟩) ∧
    (⟨some 1, "TO"⟩ : Snap.Msg) ≠ ⟨some 1, "TN"⟩ := by
  exact ⟨by decide, by decide⟩

/-! ## Claim C9 — atomicity of the document writes -/

/-- C9 counterexample: the snapshot-store write of
`update_bw_snapshots.save_snapshots` dumps the document directly onto the
final path — its trace writes `bw_snapshots.json` itself and performs no
rename — so it does not follow the claimed temp-file-then-atomic-rename
pattern. -/
theorem c9_counterexample :
    Persist.writesFinalDirectly
        (Persist.save_snapshots_ops "doc" Persist.SNAPSHOT_PATH)
        Persist.SNAPSHOT_PATH = true ∧
    Persist.installsByRename
        (Persist.save_snapshots_ops "doc" Persist.SNAPSHOT_PATH)
        Persist.SNAPSHOT_PATH = false ∧
    Persist.atomicPattern
        (Persist.save_snapshots_ops "doc" Persist.SNAPSHOT_PATH)
        Persist.SNAPSHOT_PATH = false := by
  exact ⟨by decide, by decide, by decide⟩

/-- C9 amended: for every document, the writers of `merge_bw_kdh.py` and
`fetch_kdhdata.py` (`save_json_atomic`) follow the
temp-file-then-atomic-rename pattern for their targets, while the
snapshot-store write of `update_bw_snapshots.py` and the analysis-output
write of `rig_well_analysis.py` put the document directly onto the final
path. -/
theorem c9_amended (doc : String) :
    Persist.atomicPattern (Persist.save_json_atomic_ops doc Persist.MERGED_PATH)
        Persist.MERGED_PATH = true ∧
    Persist.atomicPattern (Persist.save_json_atomic_ops doc Persist.ANALYSIS_PATH)
        Persist.ANALYSIS_PATH = true ∧
    Persist.writesFinalDirectly (Persist.save_snapshots_ops doc Persist.SNAPSHOT_PATH)
        Persist.SNAPSHOT_PATH = true ∧
    Persist.writesFinalDirectly (Persist.save_snapshots_ops doc Persist.ANALYSIS_PATH)
        Persist.ANALYSIS_PATH = true := by
  refine ⟨?_, ?_, ?_, ?_⟩ <;>
    simp [Persist.atomicPattern, Persist.writesFinalDirectly, Persist.installsByRename,
      Persist.save_json_atomic_ops, Persist.save_snapshots_ops, Persist.withSuffixTmp,
      Persist.SNAPSHOT_PATH, Persist.ANALYSIS_PATH, Persist.MERGED_PATH, Persist.dirOf] <;>
    decide

/-! ## Helper lemmas on the snapshot merge -/

namespace Snap

theorem processMsg_skip (now : Int) (parse : String → Option Int) (s : Store) (m : Msg)
    (k : Int) (h : ¬(m.mmsi = some k ∧ (parse m.msgtime).isSome = true)) :
    processMsg now parse s m k = s k := by
  cases hp : parse m.msgtime with
  | none => simp [processMsg, hp]
  | some dt =>
    cases hm : m.mmsi with
    | none => simp [processMsg, hp, hm]
    | some j =>
      have hjk : k ≠ j := by
        intro he
        exact h ⟨by rw [hm, he], by rw [hp]; rfl⟩
      simp [processMsg, hp, hm, Store.update, hjk]

theorem processMsg_hit (now : Int) (parse : String → Option Int) (s : Store) (m : Msg)
    (dt k : Int) (hp : parse m.msgtime = some dt) (hk : m.mmsi = some k) :
    processMsg now parse s m k =
      some { msg_recent := some m
             running_msgs := pruneRunning now (updatedRunning ((s k).getD {}).running_msgs m dt)
             msg_12h := bucket12 now (updatedRunning ((s k).getD {}).running_msgs m dt)
                          ((s k).getD {}).msg_12h
             msg_1d := ((s k).getD {}).msg_1d
             msg_2d := ((s k).getD {}).msg_2d } := by
  simp [processMsg, hp, hk, Store.update]

theorem getRecent_rollover (now : Int) (s : Store) (k : Int) :
    getRecent (rolloverStep now s) k = getRecent s k := by
  unfold rolloverStep
  split
  · cases h : s k <;> simp [getRecent, shiftAll, h]
  · rfl

theorem lastValidFor_cons (parse : String → Option Int) (k : Int) (m : Msg) (t : List Msg) :
    lastValidFor parse k (m :: t) =
      (lastValidFor parse k t).or
        (if (m.mmsi = some k && (parse m.msgtime).isSome) = true then some m else none) := by
  unfold lastValidFor
  rw [List.reverse_cons, List.find?_append]
  congr 1
  by_cases hpm : (m.mmsi = some k && (parse m.msgtime).isSome) = true
  · simp [List.find?, hpm]
  · simp [List.find?, hpm]

theorem getRecent_foldl (now : Int) (parse : String → Option Int) :
    ∀ (msgs : List Msg) (s : Store) (k : Int),
      getRecent (msgs.foldl (processMsg now parse) s) k =
        match lastValidFor parse k msgs with
        | some m => some (some m)
        | none => getRecent s k := by
  intro msgs
  induction msgs with
  | nil => intro s k; simp [lastValidFor]
  | cons m t ih =>
    intro s k
    rw [List.foldl_cons, ih, lastValidFor_cons]
    cases hlt : lastValidFor parse k t with
    | some m2 => rfl
    | none =>
      by_cases hpm : (m.mmsi = some k && (parse m.msgtime).isSome) = true
      · rw [if_pos hpm]
        simp only [Bool.and_eq_true, decide_eq_true_eq] at hpm
        obtain ⟨dt, hdt⟩ := Option.isSome_iff_exists.1 hpm.2
        simp [getRecent, processMsg_hit now parse s m dt k hdt hpm.1]
      · rw [if_neg hpm]
        have h2 : ¬(m.mmsi = some k ∧ (parse m.msgtime).isSome = true) := by
          intro hc
          exact hpm (by simp [hc.1, hc.2])
        simp [getRecent, processMsg_skip now parse s m k h2]

end Snap

/-- C8 amended: during a merge `msg_recent` is overwritten by every valid
processed report, regardless of whether it is newer than the stored one:
after any batch, an asset's `current` equals the last report of the batch
for that asset that parses (batch order, not timestamp order, decides),
and it is unchanged exactly when the batch holds no valid report for the
asset. -/
theorem c8_amended (now : Int) (parse : String → Option Int) (msgs : List Snap.Msg)
    (s : Snap.Store) (k : Int) :
    Snap.getRecent (Snap.mainUpdate now parse msgs s) k =
      match Snap.lastValidFor parse k msgs with
      | some m => some (some m)
      | none => Snap.getRecent s k := by
  rw [Snap.mainUpdate, Snap.getRecent_rollover, Snap.getRecent_foldl]

/-- C5 amended: the bucket shift `2d ← 1d`, `1d ← 12h` is applied by every
run whose UTC clock lies in hour 0 and by no other run; the minute test of
line 126 is vacuous, and no last-rolled-date state exists, so a second run
within the same hour-0 window shifts the buckets again, while a second run
on the same date outside hour 0 never shifts.  The source bucket `msg_12h`
keeps its value (copied, not destroyed). -/
theorem c5_amended (now : Int) (parse : String → Option Int) (msgs : List Snap.Msg)
    (s : Snap.Store) (k : Int) :
    Snap.minuteOf now < 60 ∧
    (Snap.hourOf now = 0 →
      Snap.mainUpdate now parse msgs s k =
        ((msgs.foldl (Snap.processMsg now parse) s) k).map
          (fun sn => { sn with msg_2d := sn.msg_1d, msg_1d := sn.msg_12h })) ∧
    (Snap.hourOf now ≠ 0 →
      Snap.mainUpdate now parse msgs s k = (msgs.foldl (Snap.processMsg now parse) s) k) := by
  have hmin : Snap.minuteOf now < 60 := by
    unfold Snap.minuteOf
    omega
  refine ⟨hmin, ?_, ?_⟩
  · intro h0
    unfold Snap.mainUpdate Snap.rolloverStep
    rw [if_pos ⟨h0, hmin⟩]
    rfl
  · intro hne
    unfold Snap.mainUpdate Snap.rolloverStep
    rw [if_neg]
    intro hc
    exact hne hc.1

/-- C5 witness: at clock 0 (UTC hour 0) the amended theorem applies and
yields the shifted buckets on a concrete store. -/
theorem c5_witness :
    Snap.mainUpdate 0 (fun _ => none) []
        (fun j => if j = 1 then
          some { msg_recent := none, running_msgs := []
                 msg_12h := some ⟨some 1, "A"⟩
                 msg_1d := some ⟨some 1, "B"⟩
                 msg_2d := some ⟨some 1, "C"⟩ }
          else none) 1 =
      some { msg_recent := none, running_msgs := []
             msg_12h := some ⟨some 1, "A"⟩
             msg_1d := some ⟨some 1, "A"⟩
             msg_2d := some ⟨some 1, "B"⟩ } := by
  refine ((c5_amended 0 (fun _ => none) []
      (fun j => if j = 1 then
        some { msg_recent := none, running_msgs := []
               msg_12h := some ⟨some 1, "A"⟩
               msg_1d := some ⟨some 1, "B"⟩
               msg_2d := some ⟨some 1, "C"⟩ }
        else none) 1).2.1 (by decide)).trans ?_
  decide

namespace Snap

theorem sortRun_sorted (l : List RunEntry) : List.Sorted dtLE (sortRun l) :=
  List.sorted_insertionSort dtLE l

theorem keepLast12_sorted {l : List RunEntry} (h : List.Sorted dtLE l) :
    List.Sorted dtLE (keepLast12 l) := by
  unfold keepLast12
  split
  · exact h.sublist (List.drop_sublist _ _)
  · exact h

theorem keepLast12_len (l : List RunEntry) : (keepLast12 l).length ≤ 12 := by
  unfold keepLast12
  split
  · rename_i h
    rw [List.length_drop]
    omega
  · rename_i h
    omega

theorem updatedRunning_sorted (old : List RunEntry) (m : Msg) (dt : Int) :
    List.Sorted dtLE (updatedRunning old m dt) :=
  keepLast12_sorted (sortRun_sorted _)

theorem updatedRunning_len (old : List RunEntry) (m : Msg) (dt : Int) :
    (updatedRunning old m dt).length ≤ 12 :=
  keepLast12_len _

theorem processMsg_historyOk (now : Int) (parse : String → Option Int) (s : Store)
    (m : Msg) (dt k : Int) (hp : parse m.msgtime = some dt) (hk : m.mmsi = some k) :
    historyOk now (processMsg now parse s m k) := by
  rw [processMsg_hit now parse s m dt k hp hk]
  refine ⟨_, rfl, ?_, ?_, ?_⟩
  · exact le_trans (List.length_filter_le _ _) (updatedRunning_len _ _ _)
  · exact (updatedRunning_sorted _ _ _).sublist (List.filter_sublist _)
  · intro r hr
    exact of_decide_eq_true (List.mem_filter.1 hr).2

theorem processMsg_historyOk_preserve (now : Int) (parse : String → Option Int)
    (s : Store) (m : Msg) (k : Int) (h : historyOk now (s k)) :
    historyOk now (processMsg now parse s m k) := by
  by_cases hv : m.mmsi = some k ∧ (parse m.msgtime).isSome = true
  · obtain ⟨dt, hdt⟩ := Option.isSome_iff_exists.1 hv.2
    exact processMsg_historyOk now parse s m dt k hdt hv.1
  · rw [processMsg_skip now parse s m k hv]
    exact h

theorem foldl_historyOk (now : Int) (parse : String → Option Int) :
    ∀ (msgs : List Msg) (s : Store) (k : Int),
      (∃ m ∈ msgs, m.mmsi = some k ∧ (parse m.msgtime).isSome = true) ∨ historyOk now (s k) →
      historyOk now ((msgs.foldl (processMsg now parse) s) k) := by
  intro msgs
  induction msgs with
  | nil =>
    intro s k h
    rcases h with ⟨m, hm, _⟩ | h
    · exact absurd hm (List.not_mem_nil m)
    · exact h
  | cons m t ih =>
    intro s k h
    rw [List.foldl_cons]
    rcases h with ⟨m2, hm2, hv⟩ | h
    · rcases List.mem_cons.1 hm2 with he | ht
      · subst he
        refine ih _ k (Or.inr ?_)
        obtain ⟨dt, hdt⟩ := Option.isSome_iff_exists.1 hv.2
        exact processMsg_historyOk now parse s m2 dt k hdt hv.1
      · exact ih _ k (Or.inl ⟨m2, ht, hv⟩)
    · exact ih _ k (Or.inr (processMsg_historyOk_preserve now parse s m k h))

theorem rollover_historyOk (now : Int) (s : Store) (k : Int)
    (h : historyOk now (s k)) : historyOk now (rolloverStep now s k) := by
  unfold rolloverStep
  split
  · obtain ⟨sn, hsn, h1, h2, h3⟩ := h
    exact ⟨{ sn with msg_2d := sn.msg_1d, msg_1d := sn.msg_12h },
      by simp [shiftAll, hsn], h1, h2, h3⟩
  · exact h

end Snap

/-- C4 amended: after a merge, the bounds hold for every asset that
received at least one valid report in the batch (not for every asset
snapshot): its history has at most 12 entries, is sorted ascending by
observation time, and has no entry aged 12 hours or more at merge time.
Assets without a valid report in the batch are left untouched, stale
entries included. -/
theorem c4_amended (now : Int) (parse : String → Option Int) (msgs : List Snap.Msg)
    (s : Snap.Store) (k : Int)
    (h : ∃ m ∈ msgs, m.mmsi = some k ∧ (parse m.msgtime).isSome = true) :
    ∃ sn, Snap.mainUpdate now parse msgs s k = some sn ∧
      sn.running_msgs.length ≤ 12 ∧
      List.Sorted Snap.dtLE sn.running_msgs ∧
      ∀ r ∈ sn.running_msgs, now - r.msgtime_dt < Snap.twelveHours :=
  Snap.rollover_historyOk now _ k (Snap.foldl_historyOk now parse msgs s k (Or.inl h))

/-- C4 witness: the amended bounds at a concrete batch — one valid report
for mmsi 3, aged 1000 seconds, merged into the empty store at clock
50000. -/
theorem c4_witness :
    (∃ m ∈ [(⟨some 3, "T"⟩ : Snap.Msg)], m.mmsi = some 3 ∧
        (((fun t => if t = "T" then some 49000 else none) : String → Option Int)
          m.msgtime).isSome = true) ∧
    ∃ sn, Snap.mainUpdate 50000 (fun t => if t = "T" then some 49000 else none)
        [⟨some 3, "T"⟩] Snap.emptyStore 3 = some sn ∧
      sn.running_msgs.length ≤ 12 ∧
      List.Sorted Snap.dtLE sn.running_msgs ∧
      ∀ r ∈ sn.running_msgs, 50000 - r.msgtime_dt < Snap.twelveHours :=
  ⟨by decide, c4_amended 50000 _ _ _ 3 (by decide)⟩

namespace Snap

theorem entryGet_msgtime (r : RunEntry) : entryGet r "msgtime" = none := rfl

theorem dedup_always (old : List RunEntry) (m : Msg) :
    (old.all (fun r => entryGet r "msgtime" ≠ some (DVal.str m.msgtime))) = true := by
  rw [List.all_eq_true]
  intro r _
  simp [entryGet_msgtime r]

theorem updatedRunning_eq (old : List RunEntry) (m : Msg) (dt : Int) :
    updatedRunning old m dt = keepLast12 (sortRun (old ++ [⟨m, dt⟩])) := by
  unfold updatedRunning
  rw [if_pos (dedup_always old m)]

theorem sortRun_length (l : List RunEntry) : (sortRun l).length = l.length :=
  (List.perm_insertionSort dtLE l).length_eq

theorem keepLast12_ne_nil {l : List RunEntry} (h : l ≠ []) : keepLast12 l ≠ [] := by
  unfold keepLast12
  split
  · rename_i h12
    intro hc
    have hlen := congrArg List.length hc
    rw [List.length_drop] at hlen
    simp at hlen
    omega
  · exact h

theorem updatedRunning_ne_nil (old : List RunEntry) (m : Msg) (dt : Int) :
    updatedRunning old m dt ≠ [] := by
  rw [updatedRunning_eq]
  apply keepLast12_ne_nil
  intro hc
  have hlen := congrArg List.length hc
  rw [sortRun_length, List.length_append] at hlen
  simp at hlen

theorem bucket12_head_old (now : Int) (e : RunEntry) (L : List RunEntry)
    (old12 : Option Msg) (h : twelveHours ≤ now - e.msgtime_dt) :
    bucket12 now (e :: L) old12 = some e.msg := by
  simp [bucket12, List.find?, h]

theorem bucket12_head_young (now : Int) (e : RunEntry) (L : List RunEntry)
    (old12 : Option Msg) (hsorted : List.Sorted dtLE (e :: L))
    (h : now - e.msgtime_dt < twelveHours) :
    bucket12 now (e :: L) old12 = old12 := by
  unfold bucket12
  have hnone : (e :: L).find? (fun r => decide (twelveHours ≤ now - r.msgtime_dt)) = none := by
    rw [List.find?_eq_none]
    intro x hx
    simp only [decide_eq_true_eq]
    simp only [twelveHours] at h ⊢
    rcases List.mem_cons.1 hx with he | hL
    · subst he
      omega
    · have h2 : e.msgtime_dt ≤ x.msgtime_dt := (List.sorted_cons.1 hsorted).1 x hL
      omega
  rw [hnone]

end Snap

/-- C1 amended: during the processing of a valid report, the pre-eviction
history (after the always-passing duplicate check, sort and truncation) is
never empty, and the 12h bucket is set to its head — the oldest entry —
exactly when that entry is at least 12 hours old at merge time; when no
entry is that old the bucket keeps its previous value instead of becoming
absent.  Since qualifying entries are subsequently evicted, after the
merge the bucket value need not occur in the stored history at all. -/
theorem c1_amended (now : Int) (parse : String → Option Int) (s : Snap.Store)
    (m : Snap.Msg) (dt k : Int)
    (hp : parse m.msgtime = some dt) (hk : m.mmsi = some k) :
    Snap.updatedRunning ((s k).getD {}).running_msgs m dt ≠ [] ∧
    ∀ e L, Snap.updatedRunning ((s k).getD {}).running_msgs m dt = e :: L →
      (Snap.twelveHours ≤ now - e.msgtime_dt →
        (Snap.processMsg now parse s m k).map (fun sn => sn.msg_12h) =
          some (some e.msg)) ∧
      (now - e.msgtime_dt < Snap.twelveHours →
        (Snap.processMsg now parse s m k).map (fun sn => sn.msg_12h) =
          some ((s k).getD {}).msg_12h) := by
  constructor
  · exact Snap.updatedRunning_ne_nil _ _ _
  · intro e L hEL
    have hmap : (Snap.processMsg now parse s m k).map (fun sn => sn.msg_12h) =
        some (Snap.bucket12 now (Snap.updatedRunning ((s k).getD {}).running_msgs m dt)
          ((s k).getD {}).msg_12h) := by
      rw [Snap.processMsg_hit now parse s m dt k hp hk]
      rfl
    constructor
    · intro hage
      rw [hmap, hEL, Snap.bucket12_head_old now e L _ hage]
    · intro hage
      have hs : List.Sorted Snap.dtLE (e :: L) := hEL ▸ Snap.updatedRunning_sorted _ _ _
      rw [hmap, hEL, Snap.bucket12_head_young now e L _ hs hage]

/-- C1 witness: processing a single 100000-second-old report into the
empty store promotes it into the 12h bucket, per the amended theorem. -/
theorem c1_witness :
    (Snap.processMsg 100000 (fun t => if t = "Told" then some 0 else none)
        Snap.emptyStore ⟨some 1, "Told"⟩ 1).map (fun sn => sn.msg_12h) =
      some (some ⟨some 1, "Told"⟩) :=
  ((c1_amended 100000 (fun t => if t = "Told" then some 0 else none) Snap.emptyStore
      ⟨some 1, "Told"⟩ 0 1 (by decide) rfl).2 ⟨⟨some 1, "Told"⟩, 0⟩ [] (by decide)).1
    (by decide)

/-! ## Helper lemmas on the last-known-position merge -/

namespace LKP

theorem update_self (m : LKMap) (k : String) (v : LKRec) : m.update k v k = some v := by
  simp [LKMap.update]

theorem update_other (m : LKMap) (k : String) (v : LKRec) (j : String) (h : j ≠ k) :
    m.update k v j = m j := by
  simp [LKMap.update, h]

theorem lastKdhFor_cons (e : KdhEntry) (t : List KdhEntry) (r : String) :
    lastKdhFor (e :: t) r =
      (lastKdhFor t r).or
        (if (kdhAccepts e && e.rig_name.getD "" = r) = true then some e else none) := by
  unfold lastKdhFor
  rw [List.reverse_cons, List.find?_append]
  congr 1
  by_cases hpe : (kdhAccepts e && e.rig_name.getD "" = r) = true
  · simp [List.find?, hpe]
  · simp [List.find?, hpe]

theorem foldKdh (now : String) :
    ∀ (kdh : List KdhEntry) (m : LKMap) (r : String),
      (kdh.foldl (stepKdh now) m) r =
        match lastKdhFor kdh r with
        | some e => some (kdhRec now e)
        | none => m r := by
  intro kdh
  induction kdh with
  | nil => intro m r; simp [lastKdhFor]
  | cons e t ih =>
    intro m r
    rw [List.foldl_cons, ih, lastKdhFor_cons]
    cases hlt : lastKdhFor t r with
    | some e2 => rfl
    | none =>
      by_cases hpe : (kdhAccepts e && e.rig_name.getD "" = r) = true
      · rw [if_pos hpe]
        simp only [Bool.and_eq_true, decide_eq_true_eq] at hpe
        show stepKdh now m e r = some (kdhRec now e)
        rw [stepKdh, if_pos hpe.1, ← hpe.2, update_self]
      · rw [if_neg hpe]
        show stepKdh now m e r = m r
        rw [stepKdh]
        by_cases hacc : kdhAccepts e = true
        · rw [if_pos hacc]
          have hne : r ≠ e.rig_name.getD "" := by
            intro hc
            exact hpe (by simp [hacc, hc])
          exact update_other _ _ _ _ hne
        · rw [if_neg hacc]

theorem lastBwFor_cons (e : BwEntry) (t : List BwEntry) (r : String) :
    lastBwFor (e :: t) r =
      (lastBwFor t r).or
        (if (bwAccepts e && e.rig_name.getD "" = r) = true then some e else none) := by
  unfold lastBwFor
  rw [List.reverse_cons, List.find?_append]
  congr 1
  by_cases hpe : (bwAccepts e && e.rig_name.getD "" = r) = true
  · simp [List.find?, hpe]
  · simp [List.find?, hpe]

theorem foldBw (now : String) :
    ∀ (bw : List BwEntry) (m : LKMap) (r : String),
      (bw.foldl (stepBw now) m) r =
        match lastBwFor bw r with
        | some e => some (bwRec now e)
        | none => m r := by
  intro bw
  induction bw with
  | nil => intro m r; simp [lastBwFor]
  | cons e t ih =>
    intro m r
    rw [List.foldl_cons, ih, lastBwFor_cons]
    cases hlt : lastBwFor t r with
    | some e2 => rfl
    | none =>
      by_cases hpe : (bwAccepts e && e.rig_name.getD "" = r) = true
      · rw [if_pos hpe]
        simp only [Bool.and_eq_true, decide_eq_true_eq] at hpe
        show stepBw now m e r = some (bwRec now e)
        rw [stepBw, if_pos hpe.1, ← hpe.2, update_self]
      · rw [if_neg hpe]
        show stepBw now m e r = m r
        rw [stepBw]
        by_cases hacc : bwAccepts e = true
        · rw [if_pos hacc]
          have hne : r ≠ e.rig_name.getD "" := by
            intro hc
            exact hpe (by simp [hacc, hc])
          exact update_other _ _ _ _ hne
        · rw [if_neg hacc]

theorem lastStoredFor_cons (e : LKRec) (t : List LKRec) (r : String) :
    lastStoredFor (e :: t) r =
      (lastStoredFor t r).or (if (e.rig_name = r) then some e else none) := by
  unfold lastStoredFor
  rw [List.reverse_cons, List.find?_append]
  congr 1
  by_cases hpe : e.rig_name = r
  · simp [List.find?, hpe]
  · simp [List.find?, hpe]

theorem foldStored :
    ∀ (stored : List LKRec) (m : LKMap) (r : String),
      (stored.foldl stepStored m) r =
        match lastStoredFor stored r with
        | some e => some e
        | none => m r := by
  intro stored
  induction stored with
  | nil => intro m r; simp [lastStoredFor]
  | cons e t ih =>
    intro m r
    rw [List.foldl_cons, ih, lastStoredFor_cons]
    cases hlt : lastStoredFor t r with
    | some e2 => rfl
    | none =>
      by_cases hpe : e.rig_name = r
      · rw [if_pos hpe]
        show stepStored m e r = some e
        rw [stepStored, ← hpe, update_self]
      · rw [if_neg hpe]
        show stepStored m e r = m r
        have hne : r ≠ e.rig_name := fun hc => hpe hc.symm
        exact update_other _ _ _ _ hne

theorem foldReg_preserve (now : String) :
    ∀ (reg : List (String × Int)) (m : LKMap) (r : String) (v : LKRec),
      m r = some v → (reg.foldl (stepReg now) m) r = some v := by
  intro reg
  induction reg with
  | nil => intro m r v hv; exact hv
  | cons rig t ih =>
    intro m r v hv
    rw [List.foldl_cons]
    apply ih
    rw [stepReg]
    split
    · rename_i hnone
      by_cases hrr : r = rig.1
      · rw [hrr, hnone] at hv
        exact absurd hv (by simp)
      · rw [update_other _ _ _ _ hrr]
        exact hv
    · exact hv

end LKP

/-- C10: in the last-known-position merge, the retained record for a rig
is decided purely by source processing order — the last usable KDH entry
unconditionally overwrites any BW entry (timestamps are never compared),
the last usable BW entry wins when the KDH feed has none, and the
previously stored record survives exactly when neither feed supplies a
usable (named, non-null-coordinate) entry for that rig. -/
theorem c10_kdh_overwrites_bw (now : String) (stored : List LKP.LKRec)
    (bw : List LKP.BwEntry) (kdh : List LKP.KdhEntry)
    (registry : List (String × Int)) (r : String) :
    (∀ e, LKP.lastKdhFor kdh r = some e →
      LKP.mergeLastKnown now stored bw kdh registry r = some (LKP.kdhRec now e)) ∧
    (∀ e, LKP.lastKdhFor kdh r = none → LKP.lastBwFor bw r = some e →
      LKP.mergeLastKnown now stored bw kdh registry r = some (LKP.bwRec now e)) ∧
    (∀ v, LKP.lastKdhFor kdh r = none → LKP.lastBwFor bw r = none →
      LKP.lastStoredFor stored r = some v →
      LKP.mergeLastKnown now stored bw kdh registry r = some v) := by
  refine ⟨?_, ?_, ?_⟩
  · intro e he
    unfold LKP.mergeLastKnown
    apply LKP.foldReg_preserve
    rw [LKP.foldKdh, he]
  · intro e hn hb
    unfold LKP.mergeLastKnown
    apply LKP.foldReg_preserve
    rw [LKP.foldKdh, hn, LKP.foldBw, hb]
  · intro v hn hb hs
    unfold LKP.mergeLastKnown
    apply LKP.foldReg_preserve
    rw [LKP.foldKdh, hn, LKP.foldBw, hb, LKP.foldStored, hs]

/-- C10 witness: a concrete run in which rig `A` gets reports from both
feeds (the KDH record wins although the BW entry carries a different
timestamp string), rig `B` only from BW, and rig `C` only from the stored
document. -/
theorem c10_witness :
    (LKP.mergeLastKnown "f1"
        [⟨"C", some 3, some 1, some 2, some "tS", some "old", some "f0"⟩,
         ⟨"A", some 1, some 5, some 6, some "tS2", some "old", some "f0"⟩]
        [{ rig_name := some "A", mmsi := some 1, latitude := some 10,
           longitude := some 20, msgtime := some "2099-01-01T00:00:00Z" },
         { rig_name := some "B", mmsi := some 2, latitude := some 11,
           longitude := some 21, msgtime := some "tB" }]
        [{ rig_name := some "A", mmsi := some 1, lat := some 30, lon := some 40,
           timestamp := some "2000-01-01T00:00:00Z" }]
        [("D", 9)] "A" =
      some (LKP.kdhRec "f1"
        { rig_name := some "A", mmsi := some 1, lat := some 30, lon := some 40,
          timestamp := some "2000-01-01T00:00:00Z" })) ∧
    (LKP.mergeLastKnown "f1"
        [⟨"C", some 3, some 1, some 2, some "tS", some "old", some "f0"⟩,
         ⟨"A", some 1, some 5, some 6, some "tS2", some "old", some "f0"⟩]
        [{ rig_name := some "A", mmsi := some 1, latitude := some 10,
           longitude := some 20, msgtime := some "2099-01-01T00:00:00Z" },
         { rig_name := some "B", mmsi := some 2, latitude := some 11,
           longitude := some 21, msgtime := some "tB" }]
        [{ rig_name := some "A", mmsi := some 1, lat := some 30, lon := some 40,
           timestamp := some "2000-01-01T00:00:00Z" }]
        [("D", 9)] "B" =
      some (LKP.bwRec "f1"
        { rig_name := some "B", mmsi := some 2, latitude := some 11,
          longitude := some 21, msgtime := some "tB" })) ∧
    (LKP.mergeLastKnown "f1"
        [⟨"C", some 3, some 1, some 2, some "tS", some "old", some "f0"⟩,
         ⟨"A", some 1, some 5, some 6, some "tS2", some "old", some "f0"⟩]
        [{ rig_name := some "A", mmsi := some 1, latitude := some 10,
           longitude := some 20, msgtime := some "2099-01-01T00:00:00Z" },
         { rig_name := some "B", mmsi := some 2, latitude := some 11,
           longitude := some 21, msgtime := some "tB" }]
        [{ rig_name := some "A", mmsi := some 1, lat := some 30, lon := some 40,
           timestamp := some "2000-01-01T00:00:00Z" }]
        [("D", 9)] "C" =
      some ⟨"C", some 3, some 1, some 2, some "tS", some "old", some "f0"⟩) := by
  refine ⟨?_, ?_, ?_⟩
  · exact (c10_kdh_overwrites_bw "f1" _ _ _ _ "A").1 _ (by decide)
  · exact (c10_kdh_overwrites_bw "f1" _ _ _ _ "B").2.1 _ (by decide) (by decide)
  · exact (c10_kdh_overwrites_bw "f1" _ _ _ _ "C").2.2 _ (by decide) (by decide) (by decide)

/-! ## Geometry of the haversine distance -/

namespace Geo

theorem rad_sub (x y : ℝ) : rad (x - y) = rad x - rad y := by
  unfold rad
  ring

theorem sin_sq_half (x : ℝ) : Real.sin (x / 2) ^ 2 = (1 - Real.cos x) / 2 := by
  have hs := Real.sin_sq_add_cos_sq (x / 2)
  have hc := Real.cos_two_mul (x / 2)
  rw [show 2 * (x / 2) = x by ring] at hc
  linarith

theorem dot3_unitV_self (phi lam : ℝ) : dot3 (unitV phi lam) (unitV phi lam) = 1 := by
  have hphi := Real.sin_sq_add_cos_sq phi
  have hlam := Real.sin_sq_add_cos_sq lam
  simp only [dot3, unitV]
  nlinarith [hphi, hlam]

theorem cs3 (x1 x2 x3 y1 y2 y3 : ℝ) :
    (x1 * y1 + x2 * y2 + x3 * y3) ^ 2 ≤
      (x1 ^ 2 + x2 ^ 2 + x3 ^ 2) * (y1 ^ 2 + y2 ^ 2 + y3 ^ 2) := by
  nlinarith [sq_nonneg (x1 * y2 - x2 * y1), sq_nonneg (x1 * y3 - x3 * y1),
    sq_nonneg (x2 * y3 - x3 * y2)]

theorem havA_eq (lat1 lon1 lat2 lon2 : ℝ) :
    havA lat1 lon1 lat2 lon2 =
      (1 - dot3 (unitV (rad lat1) (rad lon1)) (unitV (rad lat2) (rad lon2))) / 2 := by
  unfold havA
  rw [rad_sub, rad_sub, sin_sq_half, sin_sq_half, Real.cos_sub, Real.cos_sub]
  simp only [dot3, unitV]
  ring

theorem dot3_mem (u v : ℝ × ℝ × ℝ) (hu : dot3 u u = 1) (hv : dot3 v v = 1) :
    -1 ≤ dot3 u v ∧ dot3 u v ≤ 1 := by
  obtain ⟨u1, u2, u3⟩ := u
  obtain ⟨v1, v2, v3⟩ := v
  simp only [dot3] at hu hv ⊢
  have h := cs3 u1 u2 u3 v1 v2 v3
  constructor <;> nlinarith [h]

theorem havA_mem (lat1 lon1 lat2 lon2 : ℝ) :
    0 ≤ havA lat1 lon1 lat2 lon2 ∧ havA lat1 lon1 lat2 lon2 ≤ 1 := by
  rw [havA_eq]
  have h := dot3_mem (unitV (rad lat1) (rad lon1)) (unitV (rad lat2) (rad lon2))
    (dot3_unitV_self _ _) (dot3_unitV_self _ _)
  constructor <;> linarith [h.1, h.2]

theorem atan2_sqrt_eq_arcsin {a : ℝ} (h0 : 0 ≤ a) (h1 : a ≤ 1) :
    atan2 (Real.sqrt a) (Real.sqrt (1 - a)) = Real.arcsin (Real.sqrt a) := by
  rcases lt_or_eq_of_le h1 with hlt | heq
  · have hx : 0 < Real.sqrt (1 - a) := Real.sqrt_pos.2 (by linarith)
    rw [atan2, if_pos hx]
    have hmem : Real.sqrt a ∈ Set.Ioo (-1 : ℝ) 1 := by
      constructor
      · linarith [Real.sqrt_nonneg a]
      · calc Real.sqrt a < Real.sqrt 1 := Real.sqrt_lt_sqrt h0 hlt
          _ = 1 := Real.sqrt_one
    rw [Real.arcsin_eq_arctan hmem, Real.sq_sqrt h0]
  · subst heq
    rw [atan2, sub_self, Real.sqrt_zero, Real.sqrt_one]
    rw [if_neg (lt_irrefl 0), if_neg (by simp), if_neg (by simp),
      if_pos ⟨rfl, one_pos⟩, Real.arcsin_one]

theorem two_atan2_sqrt {a : ℝ} (h0 : 0 ≤ a) (h1 : a ≤ 1) :
    2 * atan2 (Real.sqrt a) (Real.sqrt (1 - a)) = Real.arccos (1 - 2 * a) := by
  rw [atan2_sqrt_eq_arcsin h0 h1]
  have hs0 : 0 ≤ Real.arcsin (Real.sqrt a) := Real.arcsin_nonneg.2 (Real.sqrt_nonneg a)
  have hs2 : Real.arcsin (Real.sqrt a) ≤ Real.pi / 2 := Real.arcsin_le_pi_div_two _
  have hsa : Real.sqrt a ≤ 1 := by
    calc Real.sqrt a ≤ Real.sqrt 1 := Real.sqrt_le_sqrt h1
      _ = 1 := Real.sqrt_one
  have hcos : Real.cos (2 * Real.arcsin (Real.sqrt a)) = 1 - 2 * a := by
    rw [Real.cos_two_mul]
    have hsin := Real.sin_arcsin (by linarith [Real.sqrt_nonneg a]) hsa
    have hpyth := Real.sin_sq_add_cos_sq (Real.arcsin (Real.sqrt a))
    have hsq : Real.sin (Real.arcsin (Real.sqrt a)) ^ 2 = a := by
      rw [hsin, Real.sq_sqrt h0]
    nlinarith [hsq, hpyth]
  rw [← hcos, Real.arccos_cos (by linarith) (by linarith [Real.pi_pos])]

theorem arccos_triangle_aux (a b c : ℝ) (ha1 : -1 ≤ a) (ha2 : a ≤ 1)
    (hb1 : -1 ≤ b) (hb2 : b ≤ 1) (hc1 : -1 ≤ c) (hc2 : c ≤ 1)
    (hkey : a * b - Real.sqrt ((1 - a ^ 2) * (1 - b ^ 2)) ≤ c) :
    Real.arccos c ≤ Real.arccos a + Real.arccos b := by
  rcases le_or_lt Real.pi (Real.arccos a + Real.arccos b) with hsum | hsum
  · exact le_trans (Real.arccos_le_pi c) hsum
  · have hA1 : 0 ≤ Real.arccos a := Real.arccos_nonneg a
    have hB1 : 0 ≤ Real.arccos b := Real.arccos_nonneg b
    have hcos : Real.cos (Real.arccos a + Real.arccos b) =
        a * b - Real.sqrt ((1 - a ^ 2) * (1 - b ^ 2)) := by
      rw [Real.cos_add, Real.cos_arccos ha1 ha2, Real.cos_arccos hb1 hb2,
        Real.sin_arccos, Real.sin_arccos,
        ← Real.sqrt_mul (by nlinarith : (0 : ℝ) ≤ 1 - a ^ 2)]
    have hle : Real.cos (Real.arccos a + Real.arccos b) ≤ c := by
      rw [hcos]
      exact hkey
    have hmem1 : Real.cos (Real.arccos a + Real.arccos b) ∈ Set.Icc (-1 : ℝ) 1 :=
      ⟨Real.neg_one_le_cos _, Real.cos_le_one _⟩
    have hmem2 : c ∈ Set.Icc (-1 : ℝ) 1 := ⟨hc1, hc2⟩
    have hstep : Real.arccos c ≤ Real.arccos (Real.cos (Real.arccos a + Real.arccos b)) := by
      rcases eq_or_lt_of_le hle with he | hlt
      · rw [he]
      · exact le_of_lt (Real.strictAntiOn_arccos hmem1 hmem2 hlt)
    calc Real.arccos c ≤ Real.arccos (Real.cos (Real.arccos a + Real.arccos b)) := hstep
      _ = Real.arccos a + Real.arccos b := Real.arccos_cos (by linarith) hsum.le

theorem arccos_dot3_triangle (u v w : ℝ × ℝ × ℝ)
    (hu : dot3 u u = 1) (hv : dot3 v v = 1) (hw : dot3 w w = 1) :
    Real.arccos (dot3 u w) ≤ Real.arccos (dot3 u v) + Real.arccos (dot3 v w) := by
  have hab := dot3_mem u v hu hv
  have hbc := dot3_mem v w hv hw
  have hac := dot3_mem u w hu hw
  obtain ⟨u1, u2, u3⟩ := u
  obtain ⟨v1, v2, v3⟩ := v
  obtain ⟨w1, w2, w3⟩ := w
  simp only [dot3] at hu hv hw hab hbc hac ⊢
  set a := u1 * v1 + u2 * v2 + u3 * v3 with ha
  set b := v1 * w1 + v2 * w2 + v3 * w3 with hb
  set c := u1 * w1 + u2 * w2 + u3 * w3 with hc
  have e1 : (u1 - a * v1) * (w1 - b * v1) + (u2 - a * v2) * (w2 - b * v2) +
      (u3 - a * v3) * (w3 - b * v3) = c - a * b := by
    linear_combination b * ha + a * hb - hc + a * b * hv
  have e2 : (u1 - a * v1) ^ 2 + (u2 - a * v2) ^ 2 + (u3 - a * v3) ^ 2 = 1 - a ^ 2 := by
    linear_combination hu + 2 * a * ha + a ^ 2 * hv
  have e3 : (w1 - b * v1) ^ 2 + (w2 - b * v2) ^ 2 + (w3 - b * v3) ^ 2 = 1 - b ^ 2 := by
    linear_combination hw + 2 * b * hb + b ^ 2 * hv
  have hcs := cs3 (u1 - a * v1) (u2 - a * v2) (u3 - a * v3)
    (w1 - b * v1) (w2 - b * v2) (w3 - b * v3)
  rw [e1, e2, e3] at hcs
  have hkey : a * b - Real.sqrt ((1 - a ^ 2) * (1 - b ^ 2)) ≤ c := by
    have h3 : a * b - c ≤ |c - a * b| := by
      rw [abs_sub_comm]
      exact le_abs_self _
    have h4 : |c - a * b| = Real.sqrt ((c - a * b) ^ 2) := (Real.sqrt_sq_eq_abs _).symm
    have h5 : Real.sqrt ((c - a * b) ^ 2) ≤ Real.sqrt ((1 - a ^ 2) * (1 - b ^ 2)) :=
      Real.sqrt_le_sqrt hcs
    linarith
  exact arccos_triangle_aux a b c hab.1 hab.2 hbc.1 hbc.2 hac.1 hac.2 hkey

end Geo

namespace Kdh

theorem haversine_eq (lat1 lon1 lat2 lon2 : ℝ) :
    haversine_km lat1 lon1 lat2 lon2 =
      6371 * Real.arccos (Geo.dot3 (Geo.unitV (Geo.rad lat1) (Geo.rad lon1))
        (Geo.unitV (Geo.rad lat2) (Geo.rad lon2))) := by
  unfold haversine_km
  have hm := Geo.havA_mem lat1 lon1 lat2 lon2
  rw [show (6371.0 : ℝ) * 2 *
        Geo.atan2 (Real.sqrt (Geo.havA lat1 lon1 lat2 lon2))
          (Real.sqrt (1 - Geo.havA lat1 lon1 lat2 lon2)) =
      6371 * (2 * Geo.atan2 (Real.sqrt (Geo.havA lat1 lon1 lat2 lon2))
          (Real.sqrt (1 - Geo.havA lat1 lon1 lat2 lon2))) by ring]
  rw [Geo.two_atan2_sqrt hm.1 hm.2]
  congr 1
  rw [Geo.havA_eq]
  ring_nf

theorem haversine_nonneg (lat1 lon1 lat2 lon2 : ℝ) :
    0 ≤ haversine_km lat1 lon1 lat2 lon2 := by
  rw [haversine_eq]
  exact mul_nonneg (by norm_num) (Real.arccos_nonneg _)

theorem haversine_triangle (lat1 lon1 lat2 lon2 lat3 lon3 : ℝ) :
    haversine_km lat1 lon1 lat3 lon3 ≤
      haversine_km lat1 lon1 lat2 lon2 + haversine_km lat2 lon2 lat3 lon3 := by
  rw [haversine_eq, haversine_eq, haversine_eq, ← mul_add]
  apply mul_le_mul_of_nonneg_left _ (by norm_num)
  exact Geo.arccos_dot3_triangle _ _ _ (Geo.dot3_unitV_self _ _)
    (Geo.dot3_unitV_self _ _) (Geo.dot3_unitV_self _ _)

theorem pyRound3_mem {x : ℝ} (h0 : 0 ≤ x) (h1 : x ≤ 1) :
    0 ≤ pyRound3 x ∧ pyRound3 x ≤ 1 := by
  unfold pyRound3
  constructor
  · apply div_nonneg _ (by norm_num)
    have hz : (0 : ℤ) ≤ round (x * 1000) := by
      rw [round_eq]
      apply Int.le_floor.2
      push_cast
      nlinarith
    exact_mod_cast hz
  · rw [div_le_one (by norm_num)]
    have hub : round (x * 1000) ≤ (1000 : ℤ) := by
      rw [round_eq]
      have h2 : (⌊x * 1000 + 1 / 2⌋ : ℤ) < 1001 := Int.floor_lt.2 (by push_cast; nlinarith)
      omega
    exact_mod_cast hub

theorem haversine_self (lat lon : ℝ) : haversine_km lat lon lat lon = 0 := by
  have hA : Geo.havA lat lon lat lon = 0 := by
    unfold Geo.havA Geo.rad
    rw [sub_self, sub_self]
    norm_num
  unfold haversine_km
  rw [hA, Real.sqrt_zero, sub_zero, Real.sqrt_one]
  rw [Geo.atan2, if_pos one_pos]
  norm_num [Real.arctan_zero]

theorem haversine_antipodal : haversine_km 0 0 0 180 = 6371 * Real.pi := by
  have hA : Geo.havA 0 0 0 180 = 1 := by
    unfold Geo.havA Geo.rad
    rw [show ((180 : ℝ) - 0) * Real.pi / 180 / 2 = Real.pi / 2 by ring]
    rw [show ((0 : ℝ) - 0) * Real.pi / 180 / 2 = 0 by ring]
    rw [show (0 : ℝ) * Real.pi / 180 = 0 by ring]
    rw [Real.sin_zero, Real.cos_zero, Real.sin_pi_div_two]
    norm_num
  unfold haversine_km
  rw [hA, Real.sqrt_one, sub_self, Real.sqrt_zero]
  rw [Geo.atan2, if_neg (lt_irrefl 0), if_neg (by simp), if_neg (by simp),
    if_pos ⟨rfl, one_pos⟩]
  ring

end Kdh

/-- C2: for every reference position and every candidate well, the stored
approach ratio lies in the interval `[0, 1]` whenever it is present — the
upper bound is the spherical triangle inequality of the haversine
distance — and it is absent exactly when the displacement is absent
(reference missing or invalid) or the displacement is zero; it is never
set to a default in those cases. -/
theorem c2_approach_ratio_bounds (rp : Option Kdh.Pos) (lat lon wlat wlon : ℝ) :
    (∀ r, Kdh.approach_ratio rp lat lon wlat wlon = some r → 0 ≤ r ∧ r ≤ 1) ∧
    (Kdh.approach_ratio rp lat lon wlat wlon = none ↔
      Kdh.movement_km rp lat lon = none ∨ Kdh.movement_km rp lat lon = some 0) := by
  cases rp with
  | none => simp [Kdh.approach_ratio, Kdh.movement_km]
  | some p =>
    cases hlat : p.latitude with
    | none => simp [Kdh.approach_ratio, Kdh.movement_km, hlat]
    | some rlat =>
      cases hlon : p.longitude with
      | none => simp [Kdh.approach_ratio, Kdh.movement_km, hlat, hlon]
      | some rlon =>
        simp only [Kdh.approach_ratio, Kdh.movement_km, hlat, hlon]
        by_cases hpos : 0 < Kdh.haversine_km rlat rlon lat lon
        · rw [if_pos hpos]
          constructor
          · intro r hr
            have hr2 := Option.some.inj hr
            have h0 : (0 : ℝ) ≤ max 0 ((Kdh.haversine_km rlat rlon wlat wlon -
                Kdh.haversine_km lat lon wlat wlon) / Kdh.haversine_km rlat rlon lat lon) :=
              le_max_left _ _
            have h1 : max 0 ((Kdh.haversine_km rlat rlon wlat wlon -
                Kdh.haversine_km lat lon wlat wlon) / Kdh.haversine_km rlat rlon lat lon) ≤ 1 := by
              apply max_le zero_le_one
              rw [div_le_one hpos]
              have ht := Kdh.haversine_triangle rlat rlon lat lon wlat wlon
              linarith
            exact hr2 ▸ Kdh.pyRound3_mem h0 h1
          · constructor
            · intro hc
              exact absurd hc (by simp)
            · intro hor
              rcases hor with hc | hc
              · exact absurd hc (by simp)
              · have := Option.some.inj hc
                exact absurd this (ne_of_gt hpos)
        · rw [if_neg hpos]
          have hz : Kdh.haversine_km rlat rlon lat lon = 0 :=
            le_antisymm (not_lt.1 hpos) (Kdh.haversine_nonneg rlat rlon lat lon)
          constructor
          · intro r hr
            exact absurd hr (by simp)
          · simp [hz]

/-- C2 witness: reference at `(0, 0)`, current position and well both at
`(0, 180)` — the displacement is positive, the ratio is present and equals
1, and the bounds of the claim theorem apply to it. -/
theorem c2_witness :
    Kdh.approach_ratio (some ⟨some 0, some 0⟩) 0 180 0 180 = some 1 ∧
    (0 : ℝ) ≤ 1 ∧ (1 : ℝ) ≤ 1 := by
  have hpos : 0 < Kdh.haversine_km 0 0 0 180 := by
    rw [Kdh.haversine_antipodal]
    positivity
  have heq : Kdh.approach_ratio (some ⟨some 0, some 0⟩) 0 180 0 180 = some 1 := by
    show (if 0 < Kdh.haversine_km 0 0 0 180 then
        some (Kdh.pyRound3 (max 0 ((Kdh.haversine_km 0 0 0 180 -
          Kdh.haversine_km 0 180 0 180) / Kdh.haversine_km 0 0 0 180)))
      else none) = some 1
    rw [if_pos hpos]
    congr 1
    rw [Kdh.haversine_self, sub_zero, div_self (ne_of_gt hpos), max_eq_right zero_le_one]
    unfold Kdh.pyRound3
    rw [one_mul, show ((1000 : ℝ)) = ((1000 : ℤ) : ℝ) by norm_num, round_intCast]
    norm_num
  exact ⟨heq, (c2_approach_ratio_bounds (some ⟨some 0, some 0⟩) 0 180 0 180).1 1 heq⟩

namespace RW

theorem haversine_rw_self (lat lon : ℝ) : haversine_km lat lon lat lon = 0 := by
  have hA : Geo.havA lat lon lat lon = 0 := by
    unfold Geo.havA Geo.rad
    rw [sub_self, sub_self]
    norm_num
  unfold haversine_km
  rw [hA, Real.sqrt_zero, sub_zero, Real.sqrt_one]
  rw [Geo.atan2, if_pos one_pos]
  norm_num [Real.arctan_zero]

end RW

/-! ## Claim C6 — classification when is_moving is absent -/

/-- C6 counterexample: a rig with a valid current position but only one
running message (so `is_moving` is absent) is classified `stationary` with
confidence `medium` — the status `unknown` with confidence `low` required
by the claim is never produced by the classifier. -/
theorem c6_counterexample :
    RW.analyzeRig
        ⟨some { rig_name := some "R", latitude := some 0, longitude := some 0 }, []⟩ [] =
      some { is_moving := none, movement_m := none, status := "stationary"
             confidence := "medium", closest_well := none, closest_distance_m := none
             on_site_well := none, future_wells := [] } ∧
    "stationary" ≠ "unknown" ∧ "medium" ≠ "low" := by
  refine ⟨rfl, by decide, by decide⟩

/-- C6 amended: whenever the analysis emits a result whose `is_moving` is
absent, the classifier treats the rig as not moving: it reports `on_site`
with confidence `high` when some assigned activated well with valid
coordinates lies within 200 m, and otherwise `stationary` with confidence
`medium`; no `unknown` status exists.  (A rig whose current position is
invalid is skipped entirely and gets no status at all.) -/
theorem c6_amended (snap : RW.ASnap) (wells : List RW.Well) (res : RW.RigResult)
    (h : RW.analyzeRig snap wells = some res) (hmv : res.is_moving = none) :
    ((res.status = "on_site" ∧ res.confidence = "high") ∨
      (res.status = "stationary" ∧ res.confidence = "medium")) ∧
    res.status ≠ "unknown" := by
  obtain ⟨orec, running⟩ := snap
  cases orec with
  | none => simp [RW.analyzeRig] at h
  | some msg =>
    obtain ⟨orn, ola, olo, omt, osrc⟩ := msg
    cases ola with
    | none => simp [RW.analyzeRig] at h
    | some lat =>
      cases olo with
      | none => simp [RW.analyzeRig] at h
      | some lon =>
        simp only [RW.analyzeRig] at h
        by_cases htr : Py.truthyStr orn = true
        · rw [if_pos htr] at h
          have hres := Option.some.inj h
          subst hres
          simp only at hmv ⊢
          by_cases hos :
              (wells.foldl
                (RW.wellStep lat lon (RW.movementOf running lat lon).2)
                {}).on_site_well.isSome = true
          · rw [if_pos hos]
            exact ⟨Or.inl ⟨rfl, rfl⟩, by decide⟩
          · rw [if_neg hos, hmv]
            rw [show Py.notTruthy none = true from rfl, if_pos rfl]
            exact ⟨Or.inr ⟨rfl, rfl⟩, by decide⟩
        · rw [if_neg htr] at h
          exact absurd h (by simp)

/-- C6 witness: the amended theorem applied to a concrete rig with a valid
position and a single-entry history (movement unknown, no wells). -/
theorem c6_witness :
    RW.analyzeRig
        ⟨some { rig_name := some "R2", latitude := some 0, longitude := some 0 }, []⟩ [] =
      some { is_moving := none, movement_m := none, status := "stationary"
             confidence := "medium", closest_well := none, closest_distance_m := none
             on_site_well := none, future_wells := [] } ∧
    ((("stationary" : String) = "on_site" ∧ ("medium" : String) = "high") ∨
      (("stationary" : String) = "stationary" ∧ ("medium" : String) = "medium")) ∧
    ("stationary" : String) ≠ "unknown" :=
  ⟨rfl,
    c6_amended
      ⟨some { rig_name := some "R2", latitude := some 0, longitude := some 0 }, []⟩ []
      { is_moving := none, movement_m := none, status := "stationary"
        confidence := "medium", closest_well := none, closest_distance_m := none
        on_site_well := none, future_wells := [] } rfl rfl⟩

/-! ## Claim C7 — the on-site classification -/

namespace RW

theorem wellStep_on_site (lat lon : ℝ) (im : Option Bool) (st : LoopSt) (w : Well) :
    ((wellStep lat lon im st w).on_site_well.isSome = true) ↔
      (st.on_site_well.isSome = true ∨ qualifies lat lon im w) := by
  obtain ⟨wrn, wname, owlat, owlon, wentry⟩ := w
  cases owlat with
  | none => simp [wellStep, qualifies]
  | some wlat =>
    cases owlon with
    | none => simp [wellStep, qualifies]
    | some wlon =>
      have hq : qualifies lat lon im ⟨wrn, wname, some wlat, some wlon, wentry⟩ ↔
          (Py.notTruthy im = true ∧
            haversine_km lat lon wlat wlon * 1000 ≤ ON_SITE_DISTANCE_M ∧
            Py.truthyStr wentry = true) := by
        unfold qualifies
        constructor
        · rintro ⟨h1, wlat2, wlon2, he1, he2, h2, h3⟩
          cases Option.some.inj he1
          cases Option.some.inj he2
          exact ⟨h1, h2, h3⟩
        · rintro ⟨h1, h2, h3⟩
          exact ⟨h1, wlat, wlon, rfl, rfl, h2, h3⟩
      rw [hq]
      cases hcd : st.closest_distance_m with
      | none =>
        simp only [wellStep, hcd]
        by_cases hc : Py.notTruthy im = true ∧
            haversine_km lat lon wlat wlon * 1000 ≤ ON_SITE_DISTANCE_M ∧
            Py.truthyStr wentry = true
        · rw [if_pos hc]
          simp [hc]
        · rw [if_neg hc]
          simp [hc]
      | some c =>
        simp only [wellStep, hcd]
        by_cases hc : Py.notTruthy im = true ∧
            haversine_km lat lon wlat wlon * 1000 ≤ ON_SITE_DISTANCE_M ∧
            Py.truthyStr wentry = true
        · rw [if_pos hc]
          simp [hc]
        · rw [if_neg hc]
          have hsame :
              ((if haversine_km lat lon wlat wlon * 1000 < c then
                  { st with
                    closest_distance_m := some (haversine_km lat lon wlat wlon * 1000)
                    closest_well := some ⟨wrn, wname, some wlat, some wlon, wentry⟩ }
                else st) : LoopSt).on_site_well = st.on_site_well := by
            split <;> rfl
          rw [hsame]
          simp [hc]

theorem foldl_on_site (lat lon : ℝ) (im : Option Bool) :
    ∀ (wells : List Well) (st : LoopSt),
      (((wells.foldl (wellStep lat lon im) st).on_site_well.isSome = true) ↔
        (st.on_site_well.isSome = true ∨ ∃ w ∈ wells, qualifies lat lon im w)) := by
  intro wells
  induction wells with
  | nil => intro st; simp
  | cons w t ih =>
    intro st
    rw [List.foldl_cons, ih, wellStep_on_site]
    rw [List.exists_mem_cons_iff]
    tauto

end RW

/-- C7 amended: a rig is classified `on_site` with confidence `high` if
and only if it is not reported moving (`is_moving` false or absent) and
some assigned well with valid coordinates lies within the 200-metre
threshold and is activated — the well need not be the closest candidate,
and the threshold is 200 m, not 100 m.  Activation is still required, so
a stationary rig 50 m from a sole non-activated well stays `stationary`. -/
theorem c7_amended (snap : RW.ASnap) (wells : List RW.Well) (res : RW.RigResult)
    (msg : RW.AMsg) (lat lon : ℝ)
    (hrec : snap.msg_recent = some msg) (hla : msg.latitude = some lat)
    (hlo : msg.longitude = some lon) (h : RW.analyzeRig snap wells = some res) :
    (res.status = "on_site" ∧ res.confidence = "high") ↔
      (Py.notTruthy res.is_moving = true ∧
        ∃ w ∈ wells, RW.qualifies lat lon res.is_moving w) := by
  obtain ⟨orec, running⟩ := snap
  simp only at hrec
  subst hrec
  obtain ⟨orn, ola, olo, omt, osrc⟩ := msg
  simp only at hla hlo
  subst hla
  subst hlo
  simp only [RW.analyzeRig] at h
  by_cases htr : Py.truthyStr orn = true
  · rw [if_pos htr] at h
    have hres := Option.some.inj h
    subst hres
    simp only
    by_cases hos :
        (wells.foldl (RW.wellStep lat lon (RW.movementOf running lat lon).2) {}).on_site_well.isSome = true
    · rw [if_pos hos]
      have hch := (RW.foldl_on_site lat lon (RW.movementOf running lat lon).2 wells {}).1 hos
      rcases hch with hfalse | ⟨w, hw, hq⟩
      · exact absurd hfalse (by simp)
      · constructor
        · intro _
          exact ⟨hq.1, w, hw, hq⟩
        · intro _
          exact ⟨rfl, rfl⟩
    · rw [if_neg hos]
      have hnone : ¬(∃ w ∈ wells, RW.qualifies lat lon (RW.movementOf running lat lon).2 w) := by
        intro hex
        exact hos ((RW.foldl_on_site lat lon (RW.movementOf running lat lon).2 wells {}).2
          (Or.inr hex))
      by_cases hnt : Py.notTruthy (RW.movementOf running lat lon).2 = true
      · rw [if_pos hnt]
        constructor
        · intro hc
          exact absurd hc.1 (by decide)
        · intro hc
          exact absurd hc.2 hnone
      · rw [if_neg hnt]
        constructor
        · intro hc
          exact absurd hc.1 (by decide)
        · intro hc
          exact absurd hc.1 hnt
  · rw [if_neg htr] at h
    exact absurd h (by simp)

/-- C7 counterexample: a stationary rig at `(0, 0)` with two assigned
wells at its own position — `W1` first (not activated), `W2` second
(activated).  The closest (likely) target is `W1`, which has no entry
date, yet the status is `on_site`: the loop accepts any activated
assigned well within 200 m, not the likely target, so the claim's
biconditional fails at this input. -/
theorem c7_counterexample :
    RW.analyzeRig
        ⟨some { rig_name := some "R", latitude := some 0, longitude := some 0 },
         [{ rig_name := some "R", latitude := some 0, longitude := some 0 },
          { rig_name := some "R", latitude := some 0, longitude := some 0 }]⟩
        [{ rig_name := some "R", wellbore_name := "W1", lat := some 0, lon := some 0,
           entryDate := none },
         { rig_name := some "R", wellbore_name := "W2", lat := some 0, lon := some 0,
           entryDate := some "2024-01-01" }] =
      some { is_moving := some false, movement_m := some 0, status := "on_site"
             confidence := "high", closest_well := some "W1", closest_distance_m := some 0
             on_site_well := some "W2", future_wells := ["W1"] } ∧
    ({ rig_name := some "R", wellbore_name := "W1", lat := some 0, lon := some 0,
       entryDate := none } : RW.Well).entryDate = none ∧
    ("W1" : String) ≠ "W2" := by
  refine ⟨?_, rfl, by decide⟩
  have h0 : RW.haversine_km 0 0 0 0 = 0 := RW.haversine_rw_self 0 0
  have hW1 : RW.wellStep 0 0 (some false)
      { closest_well := none, closest_distance_m := none, on_site_well := none }
      { rig_name := some "R", wellbore_name := "W1", lat := some 0, lon := some 0,
        entryDate := none } =
      { closest_well := some ({ rig_name := some "R", wellbore_name := "W1", lat := some 0, lon := some 0, entryDate := none } : RW.Well)
        closest_distance_m := some 0, on_site_well := none } := by
    simp only [RW.wellStep]
    norm_num [h0, show Py.truthyStr (none : Option String) = false from rfl]
  have hW2 : RW.wellStep 0 0 (some false)
      { closest_well := some ({ rig_name := some "R", wellbore_name := "W1", lat := some 0, lon := some 0, entryDate := none } : RW.Well)
        closest_distance_m := some 0, on_site_well := none }
      { rig_name := some "R", wellbore_name := "W2", lat := some 0, lon := some 0,
        entryDate := some "2024-01-01" } =
      { closest_well := some ({ rig_name := some "R", wellbore_name := "W1", lat := some 0, lon := some 0, entryDate := none } : RW.Well)
        closest_distance_m := some 0
        on_site_well := some ({ rig_name := some "R", wellbore_name := "W2", lat := some 0, lon := some 0, entryDate := some "2024-01-01" } : RW.Well) } := by
    simp only [RW.wellStep]
    norm_num [h0, RW.ON_SITE_DISTANCE_M,
      show Py.truthyStr (some "2024-01-01") = true from rfl,
      show Py.notTruthy (some false) = true from rfl]
  simp only [RW.analyzeRig, RW.movementOf]
  norm_num [h0, RW.STATIONARY_THRESHOLD_M, RW.pyRound1, hW1, hW2,
    show Py.truthyStr (some "R") = true from rfl,
    show Py.truthyStr (some "2024-01-01") = true from rfl,
    show Py.truthyStr (none : Option String) = false from rfl]

/-- C7 witness: the amended biconditional instantiated at a stationary rig
at `(0, 0)` with a single activated assigned well at the same position. -/
theorem c7_witness :
    RW.analyzeRig
        ⟨some { rig_name := some "R3", latitude := some 0, longitude := some 0 },
         [{ rig_name := some "R3", latitude := some 0, longitude := some 0 },
          { rig_name := some "R3", latitude := some 0, longitude := some 0 }]⟩
        [{ rig_name := some "R3", wellbore_name := "W3", lat := some 0, lon := some 0,
           entryDate := some "2025-01-01" }] =
      some { is_moving := some false, movement_m := some 0, status := "on_site"
             confidence := "high", closest_well := some "W3", closest_distance_m := some 0
             on_site_well := some "W3", future_wells := [] } ∧
    ((("on_site" : String) = "on_site" ∧ ("high" : String) = "high") ↔
      (Py.notTruthy (some false) = true ∧
        ∃ w ∈ [({ rig_name := some "R3", wellbore_name := "W3", lat := some 0, lon := some 0, entryDate := some "2025-01-01" } : RW.Well)],
          RW.qualifies 0 0 (some false) w)) := by
  have h0 : RW.haversine_km 0 0 0 0 = 0 := RW.haversine_rw_self 0 0
  have hW3 : RW.wellStep 0 0 (some false)
      { closest_well := none, closest_distance_m := none, on_site_well := none }
      { rig_name := some "R3", wellbore_name := "W3", lat := some 0, lon := some 0,
        entryDate := some "2025-01-01" } =
      { closest_well := some ({ rig_name := some "R3", wellbore_name := "W3", lat := some 0, lon := some 0, entryDate := some "2025-01-01" } : RW.Well)
        closest_distance_m := some 0
        on_site_well := some ({ rig_name := some "R3", wellbore_name := "W3", lat := some 0, lon := some 0, entryDate := some "2025-01-01" } : RW.Well) } := by
    simp only [RW.wellStep]
    norm_num [h0, RW.ON_SITE_DISTANCE_M,
      show Py.truthyStr (some "2025-01-01") = true from rfl,
      show Py.notTruthy (some false) = true from rfl]
  have h : RW.analyzeRig
      ⟨some { rig_name := some "R3", latitude := some 0, longitude := some 0 },
       [{ rig_name := some "R3", latitude := some 0, longitude := some 0 },
        { rig_name := some "R3", latitude := some 0, longitude := some 0 }]⟩
      [{ rig_name := some "R3", wellbore_name := "W3", lat := some 0, lon := some 0,
         entryDate := some "2025-01-01" }] =
      some { is_moving := some false, movement_m := some 0, status := "on_site"
             confidence := "high", closest_well := some "W3", closest_distance_m := some 0
             on_site_well := some "W3", future_wells := [] } := by
    simp only [RW.analyzeRig, RW.movementOf]
    norm_num [h0, RW.STATIONARY_THRESHOLD_M, RW.pyRound1, hW3,
      show Py.truthyStr (some "R3") = true from rfl,
      show Py.truthyStr (some "2025-01-01") = true from rfl]
  exact ⟨h, c7_amended _ _ _ _ 0 0 rfl rfl rfl h⟩
